import Mathlib

/-!
# canihazconnection: a host-reachability checker

A shallow embedding of `main.go` (and of the test doubles of `main_test.go`).

Go strings are modelled by Lean `String`s (valid UTF-8 text); every byte test the
program and its libraries make is an ASCII test, and an ASCII byte never occurs inside
the UTF-8 encoding of a non-ASCII character, so testing characters agrees with testing
bytes.  The collaborators handed to `CanConnect` (logger, dialer, web client) are
non-nil; what they *return* is unconstrained, so a nil connection or a nil status
pointer is a possible result and dereferencing it is a panic (`Except.error`).
The dialer and the web client are functions of their arguments, and the calls made on
them and on the logger are recorded in a trace of `Call`s.
-/

set_option autoImplicit false

namespace Canihaz

/-! ## Go standard library: `net/url` (the part behind `url.ParseRequestURI`)

Transcribed from `net/url/url.go` as it stood in the Go releases of the time of the
repository (`parse`, `getScheme`, `parseAuthority`, `parseHost`, `unescape`, ...), with
`viaRequest = true` throughout. -/

namespace url

/-- The fields of Go's `url.URL` that `parse` fills before percent-decoding (the text is
kept as written; `IsValidURL` discards the URL and only looks at the error). -/
structure URL where
  Scheme : List Char := []
  Opaque : List Char := []
  Authority : List Char := []
  Path : List Char := []
  RawQuery : List Char := []
  ForceQuery : Bool := false
deriving DecidableEq, Repr

/-- Go `stringContainsCTLByte`: some byte is below space or is DEL. -/
def stringContainsCTLByte (s : List Char) : Bool :=
  s.any (fun b => decide (b.toNat < 32) || decide (b.toNat = 127))

/-- Letters `a-z`, `A-Z`. -/
def isLetter (c : Char) : Bool :=
  (decide ('a'.toNat ≤ c.toNat) && decide (c.toNat ≤ 'z'.toNat)) ||
  (decide ('A'.toNat ≤ c.toNat) && decide (c.toNat ≤ 'Z'.toNat))

/-- Digits `0-9`. -/
def isDigit (c : Char) : Bool :=
  decide ('0'.toNat ≤ c.toNat) && decide (c.toNat ≤ '9'.toNat)

/-- Go `ishex`. -/
def ishex (c : Char) : Bool :=
  isDigit c ||
  (decide ('a'.toNat ≤ c.toNat) && decide (c.toNat ≤ 'f'.toNat)) ||
  (decide ('A'.toNat ≤ c.toNat) && decide (c.toNat ≤ 'F'.toNat))

/-- Go `unhex`. -/
def unhex (c : Char) : Nat :=
  if isDigit c then c.toNat - '0'.toNat
  else if decide ('a'.toNat ≤ c.toNat) && decide (c.toNat ≤ 'f'.toNat) then c.toNat - 'a'.toNat + 10
  else if decide ('A'.toNat ≤ c.toNat) && decide (c.toNat ≤ 'F'.toNat) then c.toNat - 'A'.toNat + 10
  else 0

/-- The loop of Go `getScheme`; `i` is the index of the head of the remaining text. -/
def getSchemeLoop (rawURL : List Char) : Nat → List Char → Except String (List Char × List Char)
  | _, [] => .ok ([], rawURL)
  | i, c :: cs =>
    if isLetter c then getSchemeLoop rawURL (i + 1) cs
    else if isDigit c || c == '+' || c == '-' || c == '.' then
      if i = 0 then .ok ([], rawURL) else getSchemeLoop rawURL (i + 1) cs
    else if c == ':' then
      if i = 0 then .error "missing protocol scheme"
      else .ok (rawURL.take i, rawURL.drop (i + 1))
    else .ok ([], rawURL)

/-- Go `getScheme`: split off a leading `scheme:`; `(scheme, rest)`. -/
def getScheme (rawURL : List Char) : Except String (List Char × List Char) :=
  getSchemeLoop rawURL 0 rawURL

/-- The escaping modes of `net/url` that parsing a request URI reaches. -/
inductive encoding
  | encodePath
  | encodeUserPassword
  | encodeHost
  | encodeZone
deriving DecidableEq, Repr

/-- Go `shouldEscape(c, encodeHost)` on a byte value. -/
def shouldEscapeHost (c : Nat) : Bool :=
  if (97 ≤ c ∧ c ≤ 122) ∨ (65 ≤ c ∧ c ≤ 90) ∨ (48 ≤ c ∧ c ≤ 57) then false
  else if c ∈ ['!', '$', '&', '\'', '(', ')', '*', '+', ',', ';', '=', ':', '[', ']',
      '<', '>', '"'].map Char.toNat then false
  else if c ∈ ['-', '_', '.', '~'].map Char.toNat then false
  else true

/-- The validation pass of Go `unescape(s, mode)`: `ok` when every `%` starts a
well-formed escape that the mode allows and, for hosts, every ASCII byte is a host
byte.  (The decoded text is not needed: the caller only tests the error.) -/
def unescape : List Char → encoding → Except String Unit
  | [], _ => .ok ()
  | '%' :: a :: b :: rest, mode =>
    if !(ishex a) || !(ishex b) then .error "invalid URL escape"
    else if mode = .encodeHost ∧ unhex a < 8 ∧ ([a, b] ≠ ['2', '5']) then
      .error "invalid URL escape"
    else if mode = .encodeZone ∧ ([a, b] ≠ ['2', '5']) ∧ (unhex a * 16 + unhex b ≠ 32) ∧
        shouldEscapeHost (unhex a * 16 + unhex b) = true then
      .error "invalid URL escape"
    else unescape rest mode
  | c :: rest, mode =>
    if c = '%' then .error "invalid URL escape"
    else if c = '+' then unescape rest mode
    else if (mode = .encodeHost ∨ mode = .encodeZone) ∧ c.toNat < 128 ∧
        shouldEscapeHost c.toNat = true then
      .error "invalid character in host name"
    else unescape rest mode

/-- Go `validUserinfo`. -/
def validUserinfo (s : List Char) : Bool :=
  s.all (fun r => isLetter r || isDigit r ||
    decide (r ∈ ['-', '.', '_', ':', '~', '!', '$', '&', '\'', '(', ')', '*', '+', ',', ';',
      '=', '%', '@']))

/-- Go `validOptionalPort`: empty, or a colon followed by digits only. -/
def validOptionalPort : List Char → Bool
  | [] => true
  | c :: rest => c == ':' && rest.all isDigit

/-- Go `strings.LastIndex(s, string(c))` for a one-byte separator, in characters. -/
def lastIndex (c : Char) (s : List Char) : Option Nat :=
  match s.reverse.indexOf? c with
  | none => none
  | some k => some (s.length - 1 - k)

/-- Go `strings.Index(s, sub)`: the first position at which `sub` occurs. -/
def index (sub : List Char) : List Char → Option Nat
  | [] => if sub = [] then some 0 else none
  | c :: cs =>
    if sub.isPrefixOf (c :: cs) then some 0
    else (index sub cs).map (· + 1)

/-- Go `parseHost`: an IP literal in brackets with an optional port and zone, or a
name with an optional port; only the error is kept. -/
def parseHost (host : List Char) : Except String Unit :=
  if host.head? = some '[' then
    match lastIndex ']' host with
    | none => .error "missing ']' in host"
    | some i =>
      if !(validOptionalPort (host.drop (i + 1))) then .error "invalid port after host"
      else
        match index ['%', '2', '5'] (host.take i) with
        | some zone =>
          match unescape (host.take zone) .encodeHost with
          | .error e => .error e
          | .ok _ =>
            match unescape ((host.take i).drop zone) .encodeZone with
            | .error e => .error e
            | .ok _ => unescape (host.drop i) .encodeHost
        | none => unescape host .encodeHost
  else
    match lastIndex ':' host with
    | some i =>
      if !(validOptionalPort (host.drop i)) then .error "invalid port after host"
      else unescape host .encodeHost
    | none => unescape host .encodeHost

/-- Go `parseAuthority`: `[userinfo@]host`; only the error is kept. -/
def parseAuthority (authority : List Char) : Except String Unit :=
  match lastIndex '@' authority with
  | none => parseHost authority
  | some i =>
    match parseHost (authority.drop (i + 1)) with
    | .error e => .error e
    | .ok _ =>
      let userinfo := authority.take i
      if !(validUserinfo userinfo) then .error "net/url: invalid userinfo"
      else if !(userinfo.contains ':') then unescape userinfo .encodeUserPassword
      else
        match unescape (userinfo.takeWhile (· != ':')) .encodeUserPassword with
        | .error e => .error e
        | .ok _ => unescape ((userinfo.dropWhile (· != ':')).drop 1) .encodeUserPassword

/-- Go `parse(rawURL, viaRequest)` with `viaRequest = true`, the call that
`url.ParseRequestURI` makes. -/
def parse (rawURL : List Char) : Except String URL :=
  if stringContainsCTLByte rawURL then .error "net/url: invalid control character in URL"
  else if rawURL = [] then .error "empty url"
  else if rawURL = ['*'] then .ok { Path := ['*'] }
  else
    match getScheme rawURL with
    | .error e => .error e
    | .ok (scheme, rest0) =>
      let scheme := scheme.map Char.toLower
      let forceQuery := rest0.getLast? = some '?' && rest0.count '?' == 1
      let rest := if forceQuery then rest0.dropLast else rest0.takeWhile (· != '?')
      let rawQuery := if forceQuery then [] else (rest0.dropWhile (· != '?')).drop 1
      if rest.head? ≠ some '/' then
        if scheme ≠ [] then
          .ok { Scheme := scheme, Opaque := rest, RawQuery := rawQuery, ForceQuery := forceQuery }
        else .error "invalid URI for request"
      else if scheme ≠ [] ∧ ['/', '/'].isPrefixOf rest then
        let authority := (rest.drop 2).takeWhile (· != '/')
        let path := (rest.drop 2).dropWhile (· != '/')
        match parseAuthority authority with
        | .error e => .error e
        | .ok _ =>
          match unescape path .encodePath with
          | .error e => .error e
          | .ok _ =>
            .ok { Scheme := scheme, Authority := authority, Path := path, RawQuery := rawQuery,
                  ForceQuery := forceQuery }
      else
        match unescape rest .encodePath with
        | .error e => .error e
        | .ok _ =>
          .ok { Scheme := scheme, Path := rest, RawQuery := rawQuery, ForceQuery := forceQuery }

/-- Go `url.ParseRequestURI`: an absolute URI or an absolute path, as received in an
HTTP request line. -/
def ParseRequestURI (rawURL : String) : Except String URL :=
  match parse rawURL.data with
  | .error e => .error ("parse \"" ++ rawURL ++ "\": " ++ e)
  | .ok u => .ok u

end url

/-- Function `IsValidURL` of `main.go`: true when `url.ParseRequestURI` reports no error. -/
def IsValidURL (testURL : String) : Bool :=
  match url.ParseRequestURI testURL with
  | .error _ => false
  | .ok _ => true

/-! ## Go standard library: `strings`, `sort`, `strconv`, `net/http`, `time` -/

namespace unicode

/-- Go `unicode.IsSpace`: the Latin-1 spaces `\t \n \v \f \r`, space, U+0085, U+00A0, and
the other code points with the White_Space property. -/
def IsSpace (r : Char) : Bool :=
  let n := r.toNat
  decide (9 ≤ n ∧ n ≤ 13) || decide (n = 32) || decide (n = 0x85) || decide (n = 0xA0) ||
  decide (n = 0x1680) || decide (0x2000 ≤ n ∧ n ≤ 0x200A) || decide (n = 0x2028) ||
  decide (n = 0x2029) || decide (n = 0x202F) || decide (n = 0x205F) || decide (n = 0x3000)

end unicode

namespace strings

/-- Go `strings.IndexByte(s, c)`: the first position of `c` in `s`. -/
def IndexByte (c : Char) : List Char → Option Nat
  | [] => none
  | x :: xs => if x = c then some 0 else (IndexByte c xs).map (· + 1)

/-- Go `strings.Count(s, sep)` for a one-byte separator. -/
def Count (s : List Char) (sep : Char) : Nat :=
  s.count sep

/-- The loop of Go `genSplit` for a one-byte separator: at most `n` more cuts at the
first separator of what remains, then the remainder as last piece. -/
def genSplitLoop (sep : Char) : Nat → List Char → List (List Char)
  | 0, s => [s]
  | n + 1, s =>
    match IndexByte sep s with
    | none => [s]
    | some m => s.take m :: genSplitLoop sep n (s.drop (m + 1))

/-- Go `strings.Split(s, sep)` for a one-byte separator (`genSplit(s, sep, 0, -1)`): the
result has room for `Count(s, sep) + 1` pieces. -/
def Split (s : String) (sep : Char) : List String :=
  (genSplitLoop sep (Count s.data sep) s.data).map String.mk

/-- Go `strings.TrimSpace`: drop leading and trailing Unicode white space. -/
def TrimSpace (s : String) : String :=
  ⟨(s.data.dropWhile unicode.IsSpace).rdropWhile unicode.IsSpace⟩

/-- Go `strings.Join`. -/
def Join : List String → String → String
  | [], _ => ""
  | [a], _ => a
  | a :: b :: rest, sep => a ++ sep ++ Join (b :: rest) sep

/-- Go `strings.ToUpper`: ASCII text is upper-cased letter by letter (and returned
as is when it has no lower-case letter); other text goes through `unicode.ToUpper`,
whose case table is the parameter `unicodeToUpper`. -/
def ToUpper (unicodeToUpper : Char → Char) (s : String) : String :=
  let isASCII := s.data.all (fun c => decide (c.toNat < 128))
  let hasLower := s.data.any (fun c => decide ('a'.toNat ≤ c.toNat ∧ c.toNat ≤ 'z'.toNat))
  if isASCII then
    if !hasLower then s
    else ⟨s.data.map (fun c =>
      if 'a'.toNat ≤ c.toNat ∧ c.toNat ≤ 'z'.toNat then Char.ofNat (c.toNat - 32) else c)⟩
  else ⟨s.data.map unicodeToUpper⟩

end strings

namespace sort

/-- Go `StringSlice.Less`: `x[i] < x[j]`, the lexicographic order of the bytes (which
for UTF-8 text is the lexicographic order of the code points). -/
def Less (a b : String) : Bool :=
  decide (a.data < b.data)

/-- Go `sort.Strings`: the slice in increasing order (an insertion sort; as equal keys
are identical strings, every sorting algorithm gives the same result). -/
def Strings (x : List String) : List String :=
  x.insertionSort (fun a b => Less b a = false)

end sort

namespace strconv

/-- Decimal text of a Go `int`, as `%d` prints it. -/
def Itoa : Int → String
  | Int.ofNat n => Nat.repr n
  | Int.negSucc n => "-" ++ Nat.repr (n + 1)

end strconv

namespace time

/-- Go `time.Second`, in nanoseconds. -/
def Second : Int := 1000000000

end time

namespace http

def StatusOK : Int := 200
def StatusCreated : Int := 201
def StatusAccepted : Int := 202
def StatusNonAuthoritativeInfo : Int := 203
def StatusNoContent : Int := 204
def StatusResetContent : Int := 205
def StatusPartialContent : Int := 206
def StatusMultiStatus : Int := 207
def StatusAlreadyReported : Int := 208
def StatusIMUsed : Int := 226
def StatusMultipleChoices : Int := 300
def StatusMovedPermanently : Int := 301
def StatusFound : Int := 302
def StatusSeeOther : Int := 303
def StatusNotModified : Int := 304
def StatusUseProxy : Int := 305
def StatusTemporaryRedirect : Int := 307
def StatusPermanentRedirect : Int := 308
def StatusUnauthorized : Int := 401
def StatusForbidden : Int := 403
def StatusBadGateway : Int := 502

end http

/-! ## The program -/

/-- A Go `error` value, identified with its `Error()` text. -/
structure GoError where
  text : String
deriving DecidableEq, Repr

deriving instance DecidableEq for Except

/-- A `net.Conn` handle. -/
abbrev Conn := Nat

/-- The observable calls the program makes on its collaborators. -/
inductive Call
  | Debugf (msg : String)
  | Infof (msg : String)
  | Warnf (msg : String)
  | Errorf (msg : String)
  | dial (network address : String) (timeout : Int)
  | Close (conn : Conn)
  | Get (url : String)
deriving DecidableEq, Repr

/-- Interface `WebClient` of `main.go`: `Get(string) (*int, error)`; the status pointer may
be nil. -/
structure WebClient where
  Get : String → Option Int × Option GoError

/-- Struct `HTTPClient` of `main.go`. -/
structure HTTPClient where
  HTTP : WebClient

/-- Type `DialTimeout` of `main.go`: `func(string, string, time.Duration) (net.Conn, error)`;
the connection may be nil. -/
abbrev DialTimeout := String → String → Int → Option Conn × Option GoError

/-- The run-time panic of dereferencing nil. -/
def nilDereference : String := "runtime error: invalid memory address or nil pointer dereference"

/-- Function `StringToArray` of `main.go`: append `strings.TrimSpace(vals[i])` for every index of
`vals = strings.Split(s, ",")`, when `vals` is not empty. -/
def StringToArray (s : String) : List String :=
  let a : List String := []
  let vals := strings.Split s ','
  if vals.length > 0 then
    (List.range vals.length).foldl (fun a i => a ++ [strings.TrimSpace (vals.getD i "")]) a
  else a

/-- A Go `map[string]V`: its entries in the order one `range` visits them (any order is
possible); the keys of a map are distinct. -/
abbrev GoMap (V : Type) := List (String × V)

/-- Function `Keys` of `main.go`: the keys in iteration order. -/
def Keys {V : Type} (m : GoMap V) : List String :=
  m.foldl (fun keys kv => keys ++ [kv.1]) []

/-- Function `ValidateLogLevel` of `main.go`: `m[level]` is looked up; when it is absent the
keys are collected, sorted and listed in the error. -/
def ValidateLogLevel {V : Type} (m : GoMap V) (level : String) : Bool × Option GoError :=
  if (m.lookup level).isNone then
    let keys := Keys m
    let keys := sort.Strings keys
    (false, some ⟨"loglevel : " ++ level ++ " not valid, must be one of : " ++ strings.Join keys " "⟩)
  else (true, none)

/-- The `switch *statusCode` of `CanConnect`: the case lists that fall through to
`return true, nil`. -/
def reachableStatus (statusCode : Int) : Bool :=
  decide (statusCode ∈ [http.StatusOK, http.StatusCreated, http.StatusAccepted,
    http.StatusNonAuthoritativeInfo]) ||
  decide (statusCode ∈ [http.StatusNoContent, http.StatusResetContent, http.StatusPartialContent,
    http.StatusMultiStatus]) ||
  decide (statusCode ∈ [http.StatusAlreadyReported, http.StatusIMUsed, http.StatusMultipleChoices,
    http.StatusMovedPermanently]) ||
  decide (statusCode ∈ [http.StatusFound, http.StatusSeeOther, http.StatusNotModified,
    http.StatusUseProxy]) ||
  decide (statusCode ∈ [http.StatusTemporaryRedirect, http.StatusPermanentRedirect]) ||
  decide (statusCode ∈ [http.StatusUnauthorized, http.StatusForbidden])

/-- Function `CanConnect` of `main.go`: the returned pair (or a panic) and the calls made.
The logger `l` is the trace: every `l.Debugf` is recorded as a `Call.Debugf` with its
formatted text. -/
def CanConnect (h connectionType : String) (dialer : DialTimeout) (httpClient : HTTPClient) :
    Except String (Bool × Option GoError) × List Call :=
  let t0 := [Call.Debugf ("Attempting to connect to host : " ++ h ++ " via " ++ connectionType)]
  if connectionType = "telnet" then
    let r := dialer "tcp" h (time.Second * 5)
    let t1 := t0 ++ [Call.dial "tcp" h (time.Second * 5)]
    match r.2 with
    | some err => (.ok (false, some err), t1)
    | none =>
      match r.1 with
      | none => (.error nilDereference, t1)
      | some conn => (.ok (true, none), t1 ++ [Call.Close conn])
  else if connectionType = "http" then
    if !(IsValidURL h) then
      (.ok (false, some ⟨"URL : " ++ h ++
        " is not valid...must be in the format <protocol>://<hostname> like https://example.com"⟩), t0)
    else
      let r := httpClient.HTTP.Get h
      let t1 := t0 ++ [Call.Get h]
      match r.2 with
      | some err =>
        (.ok (false, some ⟨"failed to get response from host : " ++ h ++ " got error : " ++ err.text⟩), t1)
      | none =>
        match r.1 with
        | none => (.error nilDereference, t1)
        | some statusCode =>
          let t2 := t1 ++ [Call.Debugf ("got " ++ strconv.Itoa statusCode ++ " response from " ++ h)]
          if reachableStatus statusCode then (.ok (true, none), t2)
          else
            (.ok (false, some ⟨"got back " ++ strconv.Itoa statusCode ++
              " http status code from host : " ++ h⟩), t2)
  else
    (.ok (false, some ⟨"encountered unknown connection type : " ++ connectionType ++
      "...not implimented"⟩), t0)

/-- Function `PrintHosts` of `main.go`. -/
def PrintHosts (msg : String) (h : List String) : List Call :=
  h.map (fun host => Call.Infof (msg ++ " : " ++ host))

/-- The accumulators of `main`'s loop: the two host lists, the calls made so far, and (as
a record of the run) the `(connType, host)` pairs handed to `CanConnect`. -/
structure Run where
  hostsSuccess : List String := []
  hostsFailed : List String := []
  trace : List Call := []
  dispatched : List (String × String) := []
deriving DecidableEq, Repr

/-- One iteration of the inner loop of `main` (lines 88-99). -/
def checkHost (connType : String) (dialer : DialTimeout) (httpClient : HTTPClient)
    (st : Run) (host : String) : Except String Run :=
  if host = "" then
    .ok { st with trace := st.trace ++
      [Call.Warnf ("Host is empty string, won't try to connect : " ++ host)] }
  else
    match CanConnect host connType dialer httpClient with
    | (.error p, _) => .error p
    | (.ok (_, some err), t) =>
      .ok { st with
        hostsFailed := st.hostsFailed ++ [host]
        trace := st.trace ++ t ++
          [Call.Errorf ("Failed to connect to host : " ++ host ++ " with Error : " ++ err.text)]
        dispatched := st.dispatched ++ [(connType, host)] }
    | (.ok (_, none), t) =>
      .ok { st with
        hostsSuccess := st.hostsSuccess ++ [host]
        trace := st.trace ++ t ++ [Call.Debugf ("Successfully connected to hosts : " ++ host)]
        dispatched := st.dispatched ++ [(connType, host)] }

/-- The inner loop of `main`: `for i := range hosts`. -/
def checkHosts (connType : String) (dialer : DialTimeout) (httpClient : HTTPClient) :
    Run → List String → Except String Run
  | st, [] => .ok st
  | st, host :: hosts =>
    match checkHost connType dialer httpClient st host with
    | .error p => .error p
    | .ok st1 => checkHosts connType dialer httpClient st1 hosts

/-- The outer loop of `main`: `for connType, hosts := range allRequests`. -/
def checkAll (dialer : DialTimeout) (httpClient : HTTPClient) :
    Run → List (String × List String) → Except String Run
  | st, [] => .ok st
  | st, (connType, hosts) :: more =>
    match checkHosts connType dialer httpClient st hosts with
    | .error p => .error p
    | .ok st1 => checkAll dialer httpClient st1 more

/-- The map `allRequests` of `main` in the order its `range` visits it: Go leaves the
order of the two entries open, `telnetFirst` picks one. -/
def allRequests (telnetFirst : Bool) (telnetRequests httpRequests : List String) :
    List (String × List String) :=
  if telnetFirst then [("telnet", telnetRequests), ("http", httpRequests)]
  else [("http", httpRequests), ("telnet", telnetRequests)]

/-- The body of `main` from the parsed host lists on (lines 72-112): the loops, the
summary, and the exit code. -/
def mainChecks (telnetFirst : Bool) (telnetRequests httpRequests : List String)
    (dialer : DialTimeout) (httpClient : HTTPClient) : Except String (Run × Nat) :=
  match checkAll dialer httpClient {} (allRequests telnetFirst telnetRequests httpRequests) with
  | .error p => .error p
  | .ok st =>
    let t1 := st.trace ++ [Call.Infof ("Successfully connected to " ++
      strconv.Itoa st.hostsSuccess.length ++ " out of " ++
      strconv.Itoa (telnetRequests.length + httpRequests.length : Nat) ++ " hosts")]
    let t2 := t1 ++ PrintHosts "failed to connect to host" st.hostsFailed
    if st.hostsFailed.length > 0 then
      .ok ({ st with trace := t2 ++ [Call.Debugf ("We could not connect to [" ++
        strconv.Itoa st.hostsFailed.length ++ "] host(s) so exiting process with exit code 1")] }, 1)
    else
      .ok ({ st with trace := t2 ++
        [Call.Debugf "We were able to connect to all hosts, exiting 0"] }, 0)

/-- Function `main` from the two host-list environment strings on. -/
def mainRun (telnetFirst : Bool) (telnetHosts httpRequestHosts : String)
    (dialer : DialTimeout) (httpClient : HTTPClient) : Except String (Run × Nat) :=
  mainChecks telnetFirst (StringToArray telnetHosts) (StringToArray httpRequestHosts)
    dialer httpClient

/-- The map `levels` of `main` (values are the `logrus` level numbers). -/
def levels : GoMap Nat :=
  [("INFO", 4), ("WARN", 3), ("ERROR", 2), ("DEBUG", 5), ("FATAL", 1), ("PANIC", 0), ("TRACE", 6)]

/-! ## The test doubles of `main_test.go` -/

/-- Test double `mockDialWithTimeout`: one end of a pipe, and an error unless the address is
`localhost:33333`. -/
def mockDialWithTimeout : DialTimeout := fun _protocol address _timeout =>
  if address = "localhost:33333" then (some 0, none)
  else (some 0, some ⟨"error connecting to " ++ address⟩)

/-- Helper `createPointerToInt` of `main_test.go`. -/
def createPointerToInt (x : Int) : Option Int := some x

/-- Test double `MockWebClient.Get`: 502 for one URL, an error for another, 200 otherwise. -/
def MockWebClient : WebClient where
  Get := fun url =>
    if url = "http://giveme500.com" then (createPointerToInt http.StatusBadGateway, none)
    else if url = "http://throwerror.com" then (none, some ⟨"unable to connect to : " ++ url⟩)
    else (createPointerToInt http.StatusOK, none)

/-- The `fakeHTTPClient` of `TestCanConnect`. -/
def fakeHTTPClient : HTTPClient := ⟨MockWebClient⟩

/-- A web client that answers every URL with the status `c` and no error. -/
def statusClient (c : Int) : HTTPClient := ⟨⟨fun _ => (some c, none)⟩⟩

/-- A dialer that returns neither a connection nor an error. -/
def nilDialer : DialTimeout := fun _ _ _ => (none, none)

/-! ## Vocabulary of the statements -/

/-- The call is a dial. -/
def Call.isDial : Call → Bool
  | .dial _ _ _ => true
  | _ => false

/-- The call is a `Get` on the web client. -/
def Call.isGet : Call → Bool
  | .Get _ => true
  | _ => false

/-- The dialer hands out a connection whenever it reports no error. -/
def returnsConn (dialer : DialTimeout) : Prop :=
  ∀ network address timeout, (dialer network address timeout).2 = none →
    (dialer network address timeout).1 ≠ none

/-- The web client hands out a status code whenever it reports no error. -/
def returnsStatus (client : HTTPClient) : Prop :=
  ∀ u, (client.HTTP.Get u).2 = none → (client.HTTP.Get u).1 ≠ none

/-- The status codes that `net/http` names in the 2xx and 3xx classes. -/
def named2xx3xx : List Int :=
  [200, 201, 202, 203, 204, 205, 206, 207, 208, 226, 300, 301, 302, 303, 304, 305, 307, 308]

/-- The check of the entry `(connType, host)` returned an error. -/
def checkFails (dialer : DialTimeout) (httpClient : HTTPClient) (p : String × String) : Bool :=
  match (CanConnect p.2 p.1 dialer httpClient).1 with
  | .ok (_, some _) => true
  | _ => false

/-- The non-empty entries of one host list, tagged with its connection type. -/
def nonEmptyHosts (connType : String) (hosts : List String) : List (String × String) :=
  (hosts.filter (fun host => host ≠ "")).map (fun host => (connType, host))

/-- The non-empty entries of all host lists, in the order `main` visits them. -/
def nonEmptyEntries : List (String × List String) → List (String × String)
  | [] => []
  | (connType, hosts) :: more => nonEmptyHosts connType hosts ++ nonEmptyEntries more

/-- The accumulators agree with the checks of the entries visited so far. -/
def Run.agrees (dialer : DialTimeout) (httpClient : HTTPClient) (st : Run)
    (entries : List (String × String)) : Prop :=
  st.dispatched = entries ∧
  st.hostsFailed = (entries.filter (checkFails dialer httpClient)).map Prod.snd ∧
  st.hostsSuccess = (entries.filter (fun p => !checkFails dialer httpClient p)).map Prod.snd

/-! ## Lemmas on the status switch -/

theorem reachableStatus_iff (c : Int) :
    reachableStatus c = true ↔ c ∈ named2xx3xx ∨ c = 401 ∨ c = 403 := by
  simp only [reachableStatus, named2xx3xx, http.StatusOK, http.StatusCreated, http.StatusAccepted,
    http.StatusNonAuthoritativeInfo, http.StatusNoContent, http.StatusResetContent,
    http.StatusPartialContent, http.StatusMultiStatus, http.StatusAlreadyReported,
    http.StatusIMUsed, http.StatusMultipleChoices, http.StatusMovedPermanently, http.StatusFound,
    http.StatusSeeOther, http.StatusNotModified, http.StatusUseProxy,
    http.StatusTemporaryRedirect, http.StatusPermanentRedirect, http.StatusUnauthorized,
    http.StatusForbidden, Bool.or_eq_true, decide_eq_true_eq, List.mem_cons, List.mem_singleton,
    List.not_mem_nil, or_false]
  tauto

theorem canConnect_http_status (h : String) (c : Int) (dialer : DialTimeout)
    (client : HTTPClient) (hv : IsValidURL h = true) (hg : client.HTTP.Get h = (some c, none)) :
    CanConnect h "http" dialer client =
      (if reachableStatus c then .ok (true, none)
        else .ok (false, some ⟨"got back " ++ strconv.Itoa c ++
          " http status code from host : " ++ h⟩),
       [Call.Debugf ("Attempting to connect to host : " ++ h ++ " via " ++ "http"), Call.Get h,
        Call.Debugf ("got " ++ strconv.Itoa c ++ " response from " ++ h)]) := by
  have hne : ("http" : String) ≠ "telnet" := by decide
  unfold CanConnect
  simp only [hne, if_false, hv, Bool.not_true, hg]
  by_cases hr : reachableStatus c = true <;> simp [hr]

theorem canConnect_http_invalid (h : String) (dialer : DialTimeout) (client : HTTPClient)
    (hv : IsValidURL h = false) :
    CanConnect h "http" dialer client =
      (.ok (false, some ⟨"URL : " ++ h ++
        " is not valid...must be in the format <protocol>://<hostname> like https://example.com"⟩),
       [Call.Debugf ("Attempting to connect to host : " ++ h ++ " via " ++ "http")]) := by
  have hne : ("http" : String) ≠ "telnet" := by decide
  unfold CanConnect
  simp [hne, hv]

theorem canConnect_http_error (h : String) (dialer : DialTimeout) (client : HTTPClient)
    (p : Option Int) (e : GoError) (hv : IsValidURL h = true)
    (hg : client.HTTP.Get h = (p, some e)) :
    CanConnect h "http" dialer client =
      (.ok (false, some ⟨"failed to get response from host : " ++ h ++ " got error : " ++ e.text⟩),
       [Call.Debugf ("Attempting to connect to host : " ++ h ++ " via " ++ "http"), Call.Get h]) := by
  have hne : ("http" : String) ≠ "telnet" := by decide
  unfold CanConnect
  simp [hne, hv, hg]

theorem canConnect_telnet (h : String) (dialer : DialTimeout) (client : HTTPClient) :
    CanConnect h "telnet" dialer client =
      (match (dialer "tcp" h 5000000000).2, (dialer "tcp" h 5000000000).1 with
        | some err, _ => .ok (false, some err)
        | none, none => .error nilDereference
        | none, some _ => .ok (true, none),
       [Call.Debugf ("Attempting to connect to host : " ++ h ++ " via " ++ "telnet"),
        Call.dial "tcp" h 5000000000] ++
        (match (dialer "tcp" h 5000000000).2, (dialer "tcp" h 5000000000).1 with
          | none, some conn => [Call.Close conn]
          | _, _ => [])) := by
  have h5 : time.Second * 5 = 5000000000 := by decide
  unfold CanConnect
  simp only [if_true, h5]
  rcases hd : dialer "tcp" h 5000000000 with ⟨conn, err⟩
  cases err <;> cases conn <;> simp

theorem canConnect_unknown (h connectionType : String) (dialer : DialTimeout)
    (client : HTTPClient) (h1 : connectionType ≠ "telnet") (h2 : connectionType ≠ "http") :
    CanConnect h connectionType dialer client =
      (.ok (false, some ⟨"encountered unknown connection type : " ++ connectionType ++
        "...not implimented"⟩),
       [Call.Debugf ("Attempting to connect to host : " ++ h ++ " via " ++ connectionType)]) := by
  unfold CanConnect
  simp [h1, h2]

/-! ## Lemmas on splitting and trimming -/

theorem indexByte_none (c : Char) : ∀ s : List Char, strings.IndexByte c s = none → c ∉ s
  | [], _ => by simp
  | x :: xs, h => by
    unfold strings.IndexByte at h
    by_cases hx : x = c
    · simp [hx] at h
    · simp only [hx, if_false, Option.map_eq_none'] at h
      have := indexByte_none c xs h
      simp [this, Ne.symm hx]

theorem indexByte_some (c : Char) : ∀ (s : List Char) (m : Nat), strings.IndexByte c s = some m →
    s = s.take m ++ c :: s.drop (m + 1) ∧ c ∉ s.take m
  | [], m, h => by simp [strings.IndexByte] at h
  | x :: xs, m, h => by
    unfold strings.IndexByte at h
    by_cases hx : x = c
    · simp only [hx, if_true, Option.some.injEq] at h
      subst h
      simp [hx]
    · simp only [hx, if_false, Option.map_eq_some'] at h
      obtain ⟨k, hk, rfl⟩ := h
      have ih := indexByte_some c xs k hk
      refine ⟨?_, ?_⟩
      · simp only [List.take_succ_cons, List.drop_succ_cons, List.cons_append]
        exact congrArg _ ih.1
      · simp [List.take_succ_cons, Ne.symm hx, ih.2]

theorem splitOn_no_sep (sep : Char) (s : List Char) (h : sep ∉ s) : s.splitOn sep = [s] := by
  unfold List.splitOn
  apply List.splitOnP_eq_single
  intro x hx hp
  have : x = sep := by simpa using hp
  exact h (this ▸ hx)

theorem splitOn_first (sep : Char) (a b : List Char) (h : sep ∉ a) :
    (a ++ sep :: b).splitOn sep = a :: b.splitOn sep := by
  unfold List.splitOn
  apply List.splitOnP_first
  · intro x hx hp
    have : x = sep := by simpa using hp
    exact h (this ▸ hx)
  · simp

theorem genSplitLoop_eq_splitOn (sep : Char) : ∀ (n : Nat) (s : List Char), s.count sep ≤ n →
    strings.genSplitLoop sep n s = s.splitOn sep
  | 0, s, h => by
    have h0 : sep ∉ s := by
      have : s.count sep = 0 := Nat.le_zero.1 h
      exact List.count_eq_zero.1 this
    simp [strings.genSplitLoop, splitOn_no_sep sep s h0]
  | n + 1, s, h => by
    unfold strings.genSplitLoop
    cases hi : strings.IndexByte sep s with
    | none => simp [splitOn_no_sep sep s (indexByte_none sep s hi)]
    | some m =>
      obtain ⟨hs, hnot⟩ := indexByte_some sep s m hi
      have hcount : (s.drop (m + 1)).count sep ≤ n := by
        have : s.count sep = (s.take m).count sep + ((s.drop (m + 1)).count sep + 1) := by
          conv_lhs => rw [hs]
          simp [List.count_append, List.count_cons]
        have h0 : (s.take m).count sep = 0 := List.count_eq_zero.2 hnot
        omega
      simp only
      rw [genSplitLoop_eq_splitOn sep n _ hcount]
      conv_rhs => rw [hs]
      rw [splitOn_first sep _ _ hnot]

theorem length_splitOn (sep : Char) : ∀ s : List Char, (s.splitOn sep).length = s.count sep + 1
  | [] => by simp
  | x :: xs => by
    have ih := length_splitOn sep xs
    unfold List.splitOn at ih ⊢
    rw [List.splitOnP_cons]
    by_cases hx : x = sep
    · simp [hx, ih]
    · have hne : (x == sep) = false := by simpa using hx
      have hnn : List.splitOnP (fun x => x == sep) xs ≠ [] := List.splitOnP_ne_nil _ _
      simp only [hne, Bool.false_eq_true, if_false]
      rw [List.count_cons]
      simp only [hne, Bool.false_eq_true, if_false, Nat.add_zero]
      rw [← ih]
      cases hsp : List.splitOnP (fun x => x == sep) xs with
      | nil => exact absurd hsp hnn
      | cons a as => simp [List.modifyHead]

theorem foldl_append_eq_map {α β : Type} (g : α → β) : ∀ (l : List α) (init : List β),
    l.foldl (fun a i => a ++ [g i]) init = init ++ l.map g
  | [], init => by simp
  | x :: xs, init => by
    simp [foldl_append_eq_map g xs]

theorem map_getD_range {α : Type} (l : List α) (d : α) :
    (List.range l.length).map (fun i => l.getD i d) = l := by
  apply List.ext_getElem
  · simp
  · intro i h1 h2
    simp [List.getD, List.getElem?_eq_getElem h2]

theorem stringToArray_eq (s : String) :
    StringToArray s = (s.data.splitOn ',').map (fun piece => strings.TrimSpace ⟨piece⟩) := by
  unfold StringToArray
  simp only
  have hsplit : strings.Split s ',' = (s.data.splitOn ',').map String.mk := by
    unfold strings.Split strings.Count
    rw [genSplitLoop_eq_splitOn ',' _ _ (le_refl _)]
  have hpos : (strings.Split s ',').length > 0 := by
    rw [hsplit, List.length_map, length_splitOn]; omega
  rw [if_pos hpos, foldl_append_eq_map (fun i => strings.TrimSpace ((strings.Split s ',').getD i "")),
    List.nil_append]
  have := map_getD_range (strings.Split s ',') ""
  calc (List.range (strings.Split s ',').length).map
        (fun i => strings.TrimSpace ((strings.Split s ',').getD i ""))
      = ((List.range (strings.Split s ',').length).map
          (fun i => (strings.Split s ',').getD i "")).map strings.TrimSpace := by
        rw [List.map_map]; rfl
    _ = (strings.Split s ',').map strings.TrimSpace := by rw [this]
    _ = _ := by rw [hsplit, List.map_map]; rfl

/-! ## The dispatcher `CanConnect` -/

/-- C1, as stated, fails: the host `http://example.com` is a valid URL and the status 100
lies in 100..399, yet `CanConnect` answers `false` with the error
`got back 100 http status code from host : http://example.com`. -/
theorem canConnect_status_100_fails :
    IsValidURL "http://example.com" = true ∧ (100 : Int) ≤ 100 ∧ (100 : Int) ≤ 399 ∧
    (statusClient 100).HTTP.Get "http://example.com" = (some 100, none) ∧
    (CanConnect "http://example.com" "http" mockDialWithTimeout (statusClient 100)).1 =
      .ok (false, some ⟨"got back 100 http status code from host : http://example.com"⟩) := by
  refine ⟨by decide, by decide, by decide, rfl, by decide⟩

/-- C1, amended: for a host that `IsValidURL` accepts and a status `c` that `Get` returns
with no error, `CanConnect` returns `(true, nil)` when `c` is one of the 2xx/3xx codes that
`net/http` names (200-208, 226, 300-305, 307, 308), and returns `false` with the error
`got back <c> http status code from host : <h>` when `c` is a 1xx code. -/
theorem canConnect_named_2xx_3xx_reachable (h : String) (c : Int) (dialer : DialTimeout)
    (client : HTTPClient) (hv : IsValidURL h = true) (hg : client.HTTP.Get h = (some c, none)) :
    (c ∈ ([200, 201, 202, 203, 204, 205, 206, 207, 208, 226, 300, 301, 302, 303, 304, 305,
        307, 308] : List Int) →
      (CanConnect h "http" dialer client).1 = .ok (true, none)) ∧
    (100 ≤ c → c ≤ 199 →
      (CanConnect h "http" dialer client).1 =
        .ok (false, some ⟨"got back " ++ strconv.Itoa c ++ " http status code from host : " ++ h⟩)) := by
  rw [canConnect_http_status h c dialer client hv hg]
  constructor
  · intro hc
    have hr : reachableStatus c = true := (reachableStatus_iff c).2 (Or.inl hc)
    simp [hr]
  · intro h1 h2
    have hr : ¬ reachableStatus c = true := by
      rw [reachableStatus_iff]
      simp only [named2xx3xx, List.mem_cons, List.mem_singleton, List.not_mem_nil, or_false]
      omega
    simp [hr]

/-- C1, amended, at the mock client: `http://anothertest.com` answers 200 and is reachable. -/
theorem canConnect_named_2xx_3xx_reachable_witness :
    IsValidURL "http://anothertest.com" = true ∧
    fakeHTTPClient.HTTP.Get "http://anothertest.com" = (some 200, none) ∧
    (CanConnect "http://anothertest.com" "http" mockDialWithTimeout fakeHTTPClient).1 =
      .ok (true, none) :=
  ⟨by decide, by decide,
    (canConnect_named_2xx_3xx_reachable "http://anothertest.com" 200 mockDialWithTimeout
      fakeHTTPClient (by decide) (by decide)).1 (by decide)⟩

/-- C2: for a host that `IsValidURL` accepts and a status `c` outside 100..399 that `Get`
returns with no error, `CanConnect` returns `(true, nil)` exactly when `c` is 401 or 403,
and for every other such `c` it returns `false` with the error
`got back <c> http status code from host : <h>`, `c` in decimal. -/
theorem canConnect_outside_100_399 (h : String) (c : Int) (dialer : DialTimeout)
    (client : HTTPClient) (hv : IsValidURL h = true) (hg : client.HTTP.Get h = (some c, none))
    (hc : c < 100 ∨ 399 < c) :
    ((CanConnect h "http" dialer client).1 = .ok (true, none) ↔ (c = 401 ∨ c = 403)) ∧
    (¬ (c = 401 ∨ c = 403) →
      (CanConnect h "http" dialer client).1 =
        .ok (false, some ⟨"got back " ++ strconv.Itoa c ++ " http status code from host : " ++ h⟩)) := by
  rw [canConnect_http_status h c dialer client hv hg]
  have hiff : reachableStatus c = true ↔ (c = 401 ∨ c = 403) := by
    rw [reachableStatus_iff]
    simp only [named2xx3xx, List.mem_cons, List.mem_singleton, List.not_mem_nil, or_false]
    omega
  by_cases hr : reachableStatus c = true
  · have h4 := hiff.1 hr
    simp [hr, h4]
  · have h4 : ¬ (c = 401 ∨ c = 403) := fun h4 => hr (hiff.2 h4)
    simp [hr, h4]

/-- C2 at the mock client: `http://giveme500.com` answers 502, and the check fails with
`got back 502 http status code from host : http://giveme500.com`. -/
theorem canConnect_outside_100_399_witness :
    IsValidURL "http://giveme500.com" = true ∧
    fakeHTTPClient.HTTP.Get "http://giveme500.com" = (some 502, none) ∧
    ((502 : Int) < 100 ∨ (399 : Int) < 502) ∧
    (CanConnect "http://giveme500.com" "http" mockDialWithTimeout fakeHTTPClient).1 =
      .ok (false, some ⟨"got back 502 http status code from host : http://giveme500.com"⟩) :=
  ⟨by decide, by decide, by decide,
    (canConnect_outside_100_399 "http://giveme500.com" 502 mockDialWithTimeout fakeHTTPClient
      (by decide) (by decide) (by decide)).2 (by decide)⟩

/-- C3: for a host that `IsValidURL` rejects, `CanConnect(h, "http", ...)` returns `false`
with the error `URL : <h> is not valid...must be in the format <protocol>://<hostname> like
https://example.com`; the only call it makes is the logger's `Debugf` (no dial, no `Get`),
and result and calls are the same for every other dialer and web client. -/
theorem canConnect_invalid_url (h : String) (dialer : DialTimeout) (client : HTTPClient)
    (hv : IsValidURL h = false) :
    (CanConnect h "http" dialer client).1 =
      .ok (false, some ⟨"URL : " ++ h ++
        " is not valid...must be in the format <protocol>://<hostname> like https://example.com"⟩) ∧
    (CanConnect h "http" dialer client).2.filter Call.isDial = [] ∧
    (CanConnect h "http" dialer client).2.filter Call.isGet = [] ∧
    ∀ (dialer2 : DialTimeout) (client2 : HTTPClient),
      CanConnect h "http" dialer2 client2 = CanConnect h "http" dialer client := by
  refine ⟨?_, ?_, ?_, ?_⟩
  · rw [canConnect_http_invalid h dialer client hv]
  · rw [canConnect_http_invalid h dialer client hv]; rfl
  · rw [canConnect_http_invalid h dialer client hv]; rfl
  · intro dialer2 client2
    rw [canConnect_http_invalid h dialer client hv, canConnect_http_invalid h dialer2 client2 hv]

/-- C3 at `invalidurl.com`: rejected by `IsValidURL`, so the check fails with the hint. -/
theorem canConnect_invalid_url_witness :
    IsValidURL "invalidurl.com" = false ∧
    (CanConnect "invalidurl.com" "http" mockDialWithTimeout fakeHTTPClient).1 =
      .ok (false, some ⟨"URL : invalidurl.com is not valid...must be in the format <protocol>://<hostname> like https://example.com"⟩) :=
  ⟨by decide,
    (canConnect_invalid_url "invalidurl.com" mockDialWithTimeout fakeHTTPClient (by decide)).1⟩

/-- C5: for a host that `IsValidURL` accepts, when `Get` returns an error `e` (whatever
status pointer comes with it), `CanConnect` returns `false` with the error
`failed to get response from host : <h> got error : <text of e>`; the text of `e` is part
of that message, and the calls end with the `Get`: no status code is logged or classified. -/
theorem canConnect_get_error (h : String) (dialer : DialTimeout) (client : HTTPClient)
    (p : Option Int) (e : GoError) (hv : IsValidURL h = true)
    (hg : client.HTTP.Get h = (p, some e)) :
    (CanConnect h "http" dialer client).1 =
      .ok (false, some ⟨"failed to get response from host : " ++ h ++ " got error : " ++ e.text⟩) ∧
    e.text.data <:+: ("failed to get response from host : " ++ h ++ " got error : " ++ e.text).data ∧
    (CanConnect h "http" dialer client).2 =
      [Call.Debugf ("Attempting to connect to host : " ++ h ++ " via " ++ "http"), Call.Get h] := by
  rw [canConnect_http_error h dialer client p e hv hg]
  refine ⟨rfl, ?_, rfl⟩
  rw [String.data_append]
  exact List.IsSuffix.isInfix (List.suffix_append _ _)

/-- C5 at the mock client: `http://throwerror.com` makes `Get` fail. -/
theorem canConnect_get_error_witness :
    IsValidURL "http://throwerror.com" = true ∧
    fakeHTTPClient.HTTP.Get "http://throwerror.com" =
      (none, some ⟨"unable to connect to : http://throwerror.com"⟩) ∧
    (CanConnect "http://throwerror.com" "http" mockDialWithTimeout fakeHTTPClient).1 =
      .ok (false, some ⟨"failed to get response from host : http://throwerror.com got error : unable to connect to : http://throwerror.com"⟩) :=
  ⟨by decide, by decide,
    (canConnect_get_error "http://throwerror.com" mockDialWithTimeout fakeHTTPClient none
      ⟨"unable to connect to : http://throwerror.com"⟩ (by decide) (by decide)).1⟩

/-- C4, as stated, fails: a dialer that reports no error but hands out no connection makes
`CanConnect(h, "telnet", ...)` panic on `conn.Close()` instead of returning `(true, nil)`. -/
theorem canConnect_telnet_nil_conn_panics :
    (nilDialer "tcp" "localhost:33333" (time.Second * 5)).2 = none ∧
    (CanConnect "localhost:33333" "telnet" nilDialer fakeHTTPClient).1 ≠ .ok (true, none) ∧
    (CanConnect "localhost:33333" "telnet" nilDialer fakeHTTPClient).1 = .error nilDereference := by
  refine ⟨rfl, by decide, by decide⟩

/-- C4, amended: for every host and dialer, `CanConnect(h, "telnet", ...)` dials exactly once,
with `("tcp", h, 5 seconds)`, and never calls `Get`; it returns `(true, nil)` when the dialer
returns a connection and no error, and `(false, e)` with `e` unchanged when the dialer
returns the error `e`; with the mock dialer an address `a` other than `localhost:33333`
gives the error `error connecting to <a>`. -/
theorem canConnect_telnet_dials_once (h : String) (dialer : DialTimeout) (client : HTTPClient) :
    (CanConnect h "telnet" dialer client).2.filter Call.isDial =
      [Call.dial "tcp" h (time.Second * 5)] ∧
    time.Second * 5 = 5000000000 ∧
    (CanConnect h "telnet" dialer client).2.filter Call.isGet = [] ∧
    (∀ conn, dialer "tcp" h (time.Second * 5) = (some conn, none) →
      (CanConnect h "telnet" dialer client).1 = .ok (true, none)) ∧
    (∀ conn e, dialer "tcp" h (time.Second * 5) = (conn, some e) →
      (CanConnect h "telnet" dialer client).1 = .ok (false, some e)) ∧
    (h ≠ "localhost:33333" →
      (CanConnect h "telnet" mockDialWithTimeout client).1 =
        .ok (false, some ⟨"error connecting to " ++ h⟩)) := by
  have h5 : time.Second * 5 = 5000000000 := by decide
  refine ⟨?_, h5, ?_, ?_, ?_, ?_⟩
  · rw [canConnect_telnet, h5]
    rcases dialer "tcp" h 5000000000 with ⟨conn, err⟩
    cases err <;> cases conn <;> simp [Call.isDial]
  · rw [canConnect_telnet]
    rcases dialer "tcp" h 5000000000 with ⟨conn, err⟩
    cases err <;> cases conn <;> simp [Call.isGet]
  · intro conn hd
    rw [h5] at hd
    rw [canConnect_telnet, hd]
  · intro conn e hd
    rw [h5] at hd
    rw [canConnect_telnet, hd]
  · intro hne
    rw [canConnect_telnet]
    simp [mockDialWithTimeout, hne]

/-- C4, amended, on the two telnet cases of the test table. -/
theorem canConnect_telnet_dials_once_witness :
    (CanConnect "localhost:33333" "telnet" mockDialWithTimeout fakeHTTPClient).1 =
      .ok (true, none) ∧
    (CanConnect "nonexistanthost.local:8080" "telnet" mockDialWithTimeout fakeHTTPClient).1 =
      .ok (false, some ⟨"error connecting to nonexistanthost.local:8080"⟩) :=
  ⟨(canConnect_telnet_dials_once "localhost:33333" mockDialWithTimeout fakeHTTPClient).2.2.2.1
      0 (by decide),
   (canConnect_telnet_dials_once "nonexistanthost.local:8080" mockDialWithTimeout
      fakeHTTPClient).2.2.2.2.2 (by decide)⟩

/-- C10, as stated, fails: the mock web client hands out a status code whenever it reports
no error, yet with a dialer that returns neither a connection nor an error the telnet check
returns no pair at all (it panics). -/
theorem canConnect_nil_conn_returns_nothing :
    returnsStatus fakeHTTPClient ∧
    nilDialer "tcp" "nonexistanthost.local:8080" (time.Second * 5) = (none, none) ∧
    ¬ ∃ b e, (CanConnect "nonexistanthost.local:8080" "telnet" nilDialer fakeHTTPClient).1 =
      .ok (b, e) := by
  refine ⟨?_, rfl, ?_⟩
  · intro u
    simp only [fakeHTTPClient, MockWebClient, createPointerToInt]
    split_ifs <;> simp
  · rintro ⟨b, e, hbe⟩
    rw [canConnect_telnet] at hbe
    simp [nilDialer] at hbe

/-- C10, amended: for every host and connection type, every dialer that hands out a
connection whenever it reports no error and every web client that hands out a status code
whenever it reports no error, `CanConnect` returns a pair `(b, e)` in which `b` is true
exactly when `e` is nil. -/
theorem canConnect_bool_iff_no_error (h connectionType : String) (dialer : DialTimeout)
    (client : HTTPClient) (hd : returnsConn dialer) (hc : returnsStatus client) :
    ∃ b e, (CanConnect h connectionType dialer client).1 = .ok (b, e) ∧
      (b = true ↔ e = none) := by
  by_cases ht : connectionType = "telnet"
  · subst ht
    rw [canConnect_telnet]
    have hd1 := hd "tcp" h 5000000000
    rcases hdial : dialer "tcp" h 5000000000 with ⟨conn, err⟩
    rw [hdial] at hd1
    cases err with
    | some e => exact ⟨false, some e, rfl, by simp⟩
    | none =>
      cases conn with
      | none => exact absurd rfl (hd1 rfl)
      | some c => exact ⟨true, none, rfl, by simp⟩
  · by_cases hh : connectionType = "http"
    · subst hh
      cases hv : IsValidURL h with
      | false =>
        rw [canConnect_http_invalid h dialer client hv]
        exact ⟨false, _, rfl, by simp⟩
      | true =>
        have hc1 := hc h
        rcases hget : client.HTTP.Get h with ⟨p, err⟩
        rw [hget] at hc1
        cases err with
        | some e =>
          rw [canConnect_http_error h dialer client p e hv hget]
          exact ⟨false, _, rfl, by simp⟩
        | none =>
          cases p with
          | none => exact absurd rfl (hc1 rfl)
          | some c =>
            rw [canConnect_http_status h c dialer client hv hget]
            by_cases hr : reachableStatus c = true
            · exact ⟨true, none, by simp [hr], by simp⟩
            · exact ⟨false, some ⟨"got back " ++ strconv.Itoa c ++
                " http status code from host : " ++ h⟩, by simp [hr], by simp⟩
    · rw [canConnect_unknown h connectionType dialer client ht hh]
      exact ⟨false, _, rfl, by simp⟩

/-- C10, amended, at the mock dialer and the mock web client. -/
theorem canConnect_bool_iff_no_error_witness :
    returnsConn mockDialWithTimeout ∧ returnsStatus fakeHTTPClient ∧
    ∃ b e, (CanConnect "http://giveme500.com" "http" mockDialWithTimeout fakeHTTPClient).1 =
      .ok (b, e) ∧ (b = true ↔ e = none) :=
  have hd : returnsConn mockDialWithTimeout := by
    intro n a t
    simp only [mockDialWithTimeout]
    split_ifs <;> simp
  have hc : returnsStatus fakeHTTPClient := by
    intro u
    simp only [fakeHTTPClient, MockWebClient, createPointerToInt]
    split_ifs <;> simp
  ⟨hd, hc, canConnect_bool_iff_no_error "http://giveme500.com" "http" mockDialWithTimeout
    fakeHTTPClient hd hc⟩

/-! ## The input parser `StringToArray` -/

theorem trimSpace_all_space (piece : List Char) (h : ∀ c ∈ piece, unicode.IsSpace c = true) :
    strings.TrimSpace ⟨piece⟩ = "" := by
  unfold strings.TrimSpace
  have : piece.dropWhile unicode.IsSpace = [] := List.dropWhile_eq_nil_iff.2 h
  simp [this]

theorem trimSpace_head (s : String) (c : Char) (h : (strings.TrimSpace s).data.head? = some c) :
    unicode.IsSpace c = false := by
  unfold strings.TrimSpace at h
  simp only at h
  have hpre : (s.data.dropWhile unicode.IsSpace).rdropWhile unicode.IsSpace <+:
      s.data.dropWhile unicode.IsSpace := List.rdropWhile_prefix _ _
  obtain ⟨t, ht⟩ := hpre
  have hd := List.head?_dropWhile_not unicode.IsSpace s.data
  rw [← ht] at hd
  cases hr : (s.data.dropWhile unicode.IsSpace).rdropWhile unicode.IsSpace with
  | nil => rw [hr] at h; simp at h
  | cons x xs =>
    rw [hr] at h hd
    simp only [List.head?_cons, Option.some.injEq] at h
    subst h
    simpa using hd

theorem trimSpace_last (s : String) (c : Char)
    (h : (strings.TrimSpace s).data.getLast? = some c) : unicode.IsSpace c = false := by
  unfold strings.TrimSpace at h
  simp only at h
  cases hr : (s.data.dropWhile unicode.IsSpace).rdropWhile unicode.IsSpace with
  | nil => rw [hr] at h; simp at h
  | cons x xs =>
    have hne : (s.data.dropWhile unicode.IsSpace).rdropWhile unicode.IsSpace ≠ [] := by
      rw [hr]; simp
    have hl := List.rdropWhile_last_not unicode.IsSpace _ hne
    rw [List.getLast?_eq_getLast _ hne, Option.some.injEq] at h
    rw [h] at hl
    simpa using hl

/-- C7: for every string `s`, `StringToArray s` is the list of the pieces of `s` between
its commas, each with its surrounding white space trimmed, in order; its length is the
number of commas plus one, so it is never empty; a piece that is empty or all white space
stays in place as `""`; no element starts or ends with white space; and
`StringToArray "a, b ,c" = ["a","b","c"]`, `StringToArray "" = [""]`. -/
theorem stringToArray_split_trim :
    (∀ s : String,
      StringToArray s = (s.data.splitOn ',').map (fun piece => strings.TrimSpace ⟨piece⟩) ∧
      (StringToArray s).length = s.data.count ',' + 1 ∧
      StringToArray s ≠ [] ∧
      (∀ (i : Nat) (piece : List Char), (s.data.splitOn ',')[i]? = some piece →
        (∀ c ∈ piece, unicode.IsSpace c = true) → (StringToArray s)[i]? = some "") ∧
      (∀ e ∈ StringToArray s, ∀ c, e.data.head? = some c ∨ e.data.getLast? = some c →
        unicode.IsSpace c = false)) ∧
    StringToArray "a, b ,c" = ["a", "b", "c"] ∧
    StringToArray "" = [""] := by
  refine ⟨fun s => ?_, by decide, by decide⟩
  have hlen : (StringToArray s).length = s.data.count ',' + 1 := by
    rw [stringToArray_eq, List.length_map, length_splitOn]
  refine ⟨stringToArray_eq s, hlen, ?_, ?_, ?_⟩
  · intro hnil
    rw [hnil] at hlen
    simp at hlen
  · intro i piece hi hall
    rw [stringToArray_eq, List.getElem?_map, hi]
    simp [trimSpace_all_space piece hall]
  · intro e he c hc
    rw [stringToArray_eq, List.mem_map] at he
    obtain ⟨piece, _, rfl⟩ := he
    rcases hc with hc | hc
    · exact trimSpace_head _ c hc
    · exact trimSpace_last _ c hc

/-- C7 on a list with an all-blank and two empty pieces. -/
theorem stringToArray_split_trim_witness :
    StringToArray " , x,," = ["", "x", "", ""] ∧
    (StringToArray " , x,,").length = " , x,,".data.count ',' + 1 :=
  ⟨by decide, (stringToArray_split_trim.1 " , x,,").2.1⟩

/-! ## The log-level validator `ValidateLogLevel` -/

theorem toUpper_ascii (f : Char → Char) (s : String) (h : ∀ c ∈ s.data, c.toNat < 128) :
    strings.ToUpper f s = ⟨s.data.map Char.toUpper⟩ := by
  unfold strings.ToUpper
  have hA : (s.data.all fun c => decide (c.toNat < 128)) = true := by
    simpa using h
  simp only [hA, if_true]
  have hg : (fun c : Char => if 'a'.toNat ≤ c.toNat ∧ c.toNat ≤ 'z'.toNat
      then Char.ofNat (c.toNat - 32) else c) = Char.toUpper := by
    funext c
    simp only [Char.toUpper]
    rfl
  rw [hg]
  split
  · rename_i hl
    have hid : s.data.map Char.toUpper = s.data := by
      conv_rhs => rw [← List.map_id s.data]
      apply List.map_congr_left
      intro c hc
      have hnl : ¬ (c.toNat ≥ 97 ∧ c.toNat ≤ 122) := by
        intro hcl
        have hany : (s.data.any fun c => decide ('a'.toNat ≤ c.toNat ∧ c.toNat ≤ 'z'.toNat)) = true := by
          rw [List.any_eq_true]
          exact ⟨c, hc, decide_eq_true hcl⟩
        rw [hany] at hl
        exact absurd hl (by decide)
      simp only [Char.toUpper, hnl, if_false, id]
    rw [hid]
  · rfl


theorem less_eq_false_iff (a b : String) : sort.Less b a = false ↔ a ≤ b := by
  unfold sort.Less
  rw [decide_eq_false_iff_not, String.le_iff_toList_le]
  show ¬ b.toList < a.toList ↔ _
  exact not_lt

theorem orderedInsert_less (a : String) (l : List String) :
    List.orderedInsert (fun a b => sort.Less b a = false) a l = List.orderedInsert (· ≤ ·) a l := by
  induction l with
  | nil => rfl
  | cons b l ih =>
    simp only [List.orderedInsert]
    rw [ih]
    exact if_congr (less_eq_false_iff a b) rfl rfl

theorem strings_eq_insertionSort (x : List String) :
    sort.Strings x = x.insertionSort (· ≤ ·) := by
  unfold sort.Strings
  induction x with
  | nil => rfl
  | cons a l ih =>
    simp only [List.insertionSort]
    rw [ih, orderedInsert_less]

theorem strings_sorted (x : List String) : (sort.Strings x).Sorted (· ≤ ·) := by
  rw [strings_eq_insertionSort]
  exact List.sorted_insertionSort _ _

theorem strings_perm (x : List String) : (sort.Strings x).Perm x := by
  rw [strings_eq_insertionSort]
  exact List.perm_insertionSort _ _

theorem strings_congr (x y : List String) (h : x.Perm y) : sort.Strings x = sort.Strings y :=
  List.eq_of_perm_of_sorted ((strings_perm x).trans (h.trans (strings_perm y).symm))
    (strings_sorted x) (strings_sorted y)

theorem keys_eq_map {V : Type} (m : GoMap V) : Keys m = m.map Prod.fst := by
  unfold Keys
  rw [foldl_append_eq_map Prod.fst m []]
  rfl

theorem lookup_isNone_iff {V : Type} (level : String) :
    ∀ m : GoMap V, (m.lookup level).isNone = true ↔ level ∉ m.map Prod.fst
  | [] => by simp
  | (k, v) :: m => by
    have ih := lookup_isNone_iff level m
    by_cases hk : level = k
    · subst hk
      simp [List.lookup]
    · have hb : (level == k) = false := by simpa using hk
      simp only [List.lookup, hb, List.map_cons, List.mem_cons, hk, false_or]
      exact ih

theorem validateLogLevel_unknown {V : Type} (m : GoMap V) (level : String)
    (h : level ∉ m.map Prod.fst) :
    ValidateLogLevel m level = (false, some ⟨"loglevel : " ++ level ++
      " not valid, must be one of : " ++ strings.Join (sort.Strings (m.map Prod.fst)) " "⟩) := by
  unfold ValidateLogLevel
  rw [if_pos ((lookup_isNone_iff level m).2 h), keys_eq_map]

theorem validateLogLevel_known {V : Type} (m : GoMap V) (level : String)
    (h : level ∈ m.map Prod.fst) : ValidateLogLevel m level = (true, none) := by
  unfold ValidateLogLevel
  rw [if_neg (fun hn => (lookup_isNone_iff level m).1 hn h)]

/-- C8: for every map `m` and string `level`, `ValidateLogLevel(m, level)` returns
`(true, nil)` exactly when `level` is a key of `m`; otherwise it returns `false` with the error
text `loglevel : <level> not valid, must be one of : ` followed by the keys of `m` in ascending
order joined by single spaces, and the result does not depend on the order in which the map
is iterated. For the seven-level map, every ASCII string whose upper-casing is one of the
levels is valid after `strings.ToUpper` (so `warn`, `Error` and `DebuG` are), and `BLAH` gives
`loglevel : BLAH not valid, must be one of : DEBUG ERROR FATAL INFO PANIC TRACE WARN`. -/
theorem validateLogLevel_spec :
    (∀ (V : Type) (m : GoMap V) (level : String),
      (ValidateLogLevel m level = (true, none) ↔ level ∈ m.map Prod.fst) ∧
      (level ∉ m.map Prod.fst →
        ∃ keys : List String, keys.Perm (m.map Prod.fst) ∧ keys.Sorted (· ≤ ·) ∧
          ValidateLogLevel m level = (false, some ⟨"loglevel : " ++ level ++
            " not valid, must be one of : " ++ strings.Join keys " "⟩)) ∧
      (∀ m2 : GoMap V, m2.Perm m → ValidateLogLevel m2 level = ValidateLogLevel m level)) ∧
    (∀ (unicodeToUpper : Char → Char) (s : String), (∀ c ∈ s.data, c.toNat < 128) →
      (⟨s.data.map Char.toUpper⟩ : String) ∈ levels.map Prod.fst →
      ValidateLogLevel levels (strings.ToUpper unicodeToUpper s) = (true, none)) ∧
    (∀ unicodeToUpper : Char → Char,
      ValidateLogLevel levels (strings.ToUpper unicodeToUpper "warn") = (true, none) ∧
      ValidateLogLevel levels (strings.ToUpper unicodeToUpper "Error") = (true, none) ∧
      ValidateLogLevel levels (strings.ToUpper unicodeToUpper "DebuG") = (true, none) ∧
      ValidateLogLevel levels (strings.ToUpper unicodeToUpper "BLAH") = (false, some
        ⟨"loglevel : BLAH not valid, must be one of : DEBUG ERROR FATAL INFO PANIC TRACE WARN"⟩)) := by
  refine ⟨fun V m level => ⟨?_, ?_, ?_⟩, fun f s hs hk => ?_, fun f => ?_⟩
  · constructor
    · intro h
      by_contra hn
      rw [validateLogLevel_unknown m level hn] at h
      simp at h
    · exact validateLogLevel_known m level
  · intro hn
    exact ⟨sort.Strings (m.map Prod.fst), strings_perm _, strings_sorted _,
      validateLogLevel_unknown m level hn⟩
  · intro m2 hp
    have hmap : (m2.map Prod.fst).Perm (m.map Prod.fst) := hp.map _
    by_cases hk : level ∈ m.map Prod.fst
    · rw [validateLogLevel_known m level hk, validateLogLevel_known m2 level (hmap.mem_iff.2 hk)]
    · rw [validateLogLevel_unknown m level hk,
        validateLogLevel_unknown m2 level (fun h2 => hk (hmap.mem_iff.1 h2)),
        strings_congr _ _ hmap]
  · rw [toUpper_ascii f s hs]
    exact validateLogLevel_known levels _ hk
  · have h1 : strings.ToUpper f "warn" = "WARN" := rfl
    have h2 : strings.ToUpper f "Error" = "ERROR" := rfl
    have h3 : strings.ToUpper f "DebuG" = "DEBUG" := rfl
    have h4 : strings.ToUpper f "BLAH" = "BLAH" := rfl
    rw [h1, h2, h3, h4]
    refine ⟨by decide, by decide, by decide, by decide⟩

/-- C8 on the seven-level map visited in another order: the same error text. -/
theorem validateLogLevel_spec_witness :
    ValidateLogLevel levels.reverse "BLAHBLAHBLAH" = (false, some
      ⟨"loglevel : BLAHBLAHBLAH not valid, must be one of : DEBUG ERROR FATAL INFO PANIC TRACE WARN"⟩) :=
  ((validateLogLevel_spec.1 Nat levels "BLAHBLAHBLAH").2.2 levels.reverse
    (List.reverse_perm levels)).trans (by decide)

/-! ## The URL validator `IsValidURL` -/

theorem getSchemeLoop_nil (rawURL : List Char) : ∀ (cs pre : List Char) (i : Nat) (r : List Char),
    rawURL = pre ++ cs → pre.length = i →
    url.getSchemeLoop rawURL i cs = .ok ([], r) → r = rawURL
  | [], pre, i, r, _, _, h => by
    simp only [url.getSchemeLoop, Except.ok.injEq, Prod.mk.injEq, true_and] at h
    exact h.symm
  | c :: cs, pre, i, r, hraw, hlen, h => by
    have hnext : rawURL = (pre ++ [c]) ++ cs := by simp [hraw]
    have hlen2 : (pre ++ [c]).length = i + 1 := by simp [hlen]
    unfold url.getSchemeLoop at h
    split_ifs at h with h1 h2 h3 h4 h5
    · exact getSchemeLoop_nil rawURL cs (pre ++ [c]) (i + 1) r hnext hlen2 h
    · simp only [Except.ok.injEq, Prod.mk.injEq, true_and] at h
      exact h.symm
    · exact getSchemeLoop_nil rawURL cs (pre ++ [c]) (i + 1) r hnext hlen2 h
    · simp only [Except.ok.injEq, Prod.mk.injEq] at h
      exfalso
      have hpre : pre ≠ [] := by
        intro hp
        rw [hp] at hlen
        exact h5 hlen.symm
      have htake : rawURL.take i = pre := by
        rw [hraw, ← hlen]
        simp
      rw [htake] at h
      exact hpre h.1
    · simp only [Except.ok.injEq, Prod.mk.injEq, true_and] at h
      exact h.symm

theorem getScheme_nil (rawURL r : List Char) (h : url.getScheme rawURL = .ok ([], r)) :
    r = rawURL :=
  getSchemeLoop_nil rawURL rawURL [] 0 r rfl rfl h

theorem head_takeWhile {p : Char → Bool} : ∀ (l : List Char) (c : Char),
    (l.takeWhile p).head? = some c → l.head? = some c
  | [], c, h => by simp at h
  | x :: xs, c, h => by
    by_cases hp : p x = true
    · simpa [List.takeWhile_cons, hp] using h
    · simp [List.takeWhile_cons, hp] at h

theorem head_dropLast : ∀ (l : List Char) (c : Char),
    l.dropLast.head? = some c → l.head? = some c
  | [], c, h => by simp at h
  | [x], c, h => by simp at h
  | x :: y :: xs, c, h => by simpa using h



theorem parse_ok_shape (rawURL : List Char) (u : url.URL) (h : url.parse rawURL = .ok u) :
    rawURL = ['*'] ∨ rawURL.head? = some '/' ∨
      ∃ scheme rest, url.getScheme rawURL = .ok (scheme, rest) ∧ scheme ≠ [] := by
  unfold url.parse at h
  split_ifs at h with h1 h2 h3
  · exact Or.inl h3
  · cases hs : url.getScheme rawURL with
    | error e => rw [hs] at h; simp at h
    | ok sr =>
      obtain ⟨scheme, rest0⟩ := sr
      by_cases hne : scheme = []
      · right; left
        subst hne
        have hr : rest0 = rawURL := getScheme_nil rawURL rest0 hs
        subst hr
        rw [hs] at h
        simp only [List.map_nil, ne_eq, not_true_eq_false, if_false, false_and] at h
        by_contra hhead
        have hrest : (if (rest0.getLast? = some '?' && rest0.count '?' == 1) = true
            then rest0.dropLast else rest0.takeWhile (· != '?')).head? ≠ some '/' := by
          intro hh
          apply hhead
          split_ifs at hh
          · exact head_dropLast _ _ hh
          · exact head_takeWhile _ _ hh
        rw [if_pos hrest] at h
        simp at h
      · exact Or.inr (Or.inr ⟨scheme, rest0, rfl, hne⟩)

/-- C9, as stated, fails: `IsValidURL` accepts the bare absolute path `/health`, which has
neither scheme nor host, and `mailto:someone`, which has a scheme but no host. -/
theorem isValidURL_accepts_path_and_opaque :
    IsValidURL "/health" = true ∧
    url.ParseRequestURI "/health" = .ok { Path := "/health".data } ∧
    IsValidURL "mailto:someone" = true ∧
    url.ParseRequestURI "mailto:someone" =
      .ok { Scheme := "mailto".data, Opaque := "someone".data } := by
  refine ⟨by decide, by decide, by decide, by decide⟩

/-- C9, amended: `IsValidURL(u)` returns true only if `u` is `*`, or starts with `/` (an
absolute path), or starts with a non-empty scheme followed by `:`; a string with none of
these, such as `invalidurl.com`, is rejected. -/
theorem isValidURL_only_if (u : String) (h : IsValidURL u = true) :
    u = "*" ∨ u.data.head? = some '/' ∨
      ∃ scheme rest, url.getScheme u.data = .ok (scheme, rest) ∧ scheme ≠ [] := by
  unfold IsValidURL url.ParseRequestURI at h
  cases hp : url.parse u.data with
  | error e => rw [hp] at h; simp at h
  | ok v =>
    rcases parse_ok_shape u.data v hp with h1 | h2 | h3
    · left
      exact String.ext h1
    · exact Or.inr (Or.inl h2)
    · exact Or.inr (Or.inr h3)

/-- C9, amended, on the two http cases of the test table: the URL with scheme and host is
accepted and has the scheme `https`; `invalidurl.com` is rejected. -/
theorem isValidURL_only_if_witness :
    IsValidURL "https://validurl.com:443/path/to/my/resource" = true ∧
    ("https://validurl.com:443/path/to/my/resource" = "*" ∨
      "https://validurl.com:443/path/to/my/resource".data.head? = some '/' ∨
      ∃ scheme rest, url.getScheme "https://validurl.com:443/path/to/my/resource".data =
        .ok (scheme, rest) ∧ scheme ≠ []) ∧
    url.getScheme "https://validurl.com:443/path/to/my/resource".data =
      .ok ("https".data, "//validurl.com:443/path/to/my/resource".data) ∧
    IsValidURL "invalidurl.com" = false :=
  ⟨by decide, isValidURL_only_if "https://validurl.com:443/path/to/my/resource" (by decide),
    by decide, by decide⟩

/-! ## The loops of `main` -/

theorem returnsConn_mock : returnsConn mockDialWithTimeout := by
  intro n a t
  simp only [mockDialWithTimeout]
  split_ifs <;> simp

theorem returnsStatus_mock : returnsStatus fakeHTTPClient := by
  intro u
  simp only [fakeHTTPClient, MockWebClient, createPointerToInt]
  split_ifs <;> simp

theorem canConnect_returns (h connectionType : String) (dialer : DialTimeout)
    (client : HTTPClient) (hd : returnsConn dialer) (hc : returnsStatus client) :
    ∃ b e, (CanConnect h connectionType dialer client).1 = .ok (b, e) := by
  by_cases ht : connectionType = "telnet"
  · subst ht
    rw [canConnect_telnet]
    have hd1 := hd "tcp" h 5000000000
    rcases hdial : dialer "tcp" h 5000000000 with ⟨conn, err⟩
    rw [hdial] at hd1
    cases err with
    | some e => exact ⟨false, some e, rfl⟩
    | none =>
      cases conn with
      | none => exact absurd rfl (hd1 rfl)
      | some c => exact ⟨true, none, rfl⟩
  · by_cases hh : connectionType = "http"
    · subst hh
      cases hv : IsValidURL h with
      | false =>
        rw [canConnect_http_invalid h dialer client hv]
        exact ⟨false, _, rfl⟩
      | true =>
        have hc1 := hc h
        rcases hget : client.HTTP.Get h with ⟨p, err⟩
        rw [hget] at hc1
        cases err with
        | some e =>
          rw [canConnect_http_error h dialer client p e hv hget]
          exact ⟨false, _, rfl⟩
        | none =>
          cases p with
          | none => exact absurd rfl (hc1 rfl)
          | some c =>
            rw [canConnect_http_status h c dialer client hv hget]
            by_cases hr : reachableStatus c = true
            · exact ⟨true, none, by simp [hr]⟩
            · exact ⟨false, some ⟨"got back " ++ strconv.Itoa c ++
                " http status code from host : " ++ h⟩, by simp [hr]⟩
    · rw [canConnect_unknown h connectionType dialer client ht hh]
      exact ⟨false, _, rfl⟩

theorem checkHost_agrees (connType : String) (dialer : DialTimeout) (client : HTTPClient)
    (hd : returnsConn dialer) (hc : returnsStatus client) (st : Run)
    (entries : List (String × String)) (host : String)
    (hst : st.agrees dialer client entries) :
    ∃ st1, checkHost connType dialer client st host = .ok st1 ∧
      st1.agrees dialer client (entries ++ nonEmptyHosts connType [host]) := by
  obtain ⟨h1, h2, h3⟩ := hst
  unfold checkHost
  by_cases he : host = ""
  · refine ⟨_, if_pos he, ?_⟩
    simp [Run.agrees, nonEmptyHosts, he, h1, h2, h3]
  · rw [if_neg he]
    obtain ⟨b, e, hbe⟩ := canConnect_returns host connType dialer client hd hc
    rcases hcc : CanConnect host connType dialer client with ⟨r, t⟩
    rw [hcc] at hbe
    simp only at hbe
    subst hbe
    cases e with
    | some err =>
      refine ⟨_, rfl, ?_⟩
      have hf : checkFails dialer client (connType, host) = true := by
        simp [checkFails, hcc]
      simp [Run.agrees, nonEmptyHosts, he, h1, h2, h3, hf, List.filter_append]
    | none =>
      refine ⟨_, rfl, ?_⟩
      have hf : checkFails dialer client (connType, host) = false := by
        simp [checkFails, hcc]
      simp [Run.agrees, nonEmptyHosts, he, h1, h2, h3, hf, List.filter_append]

theorem nonEmptyHosts_cons (connType host : String) (hosts : List String) :
    nonEmptyHosts connType (host :: hosts) =
      nonEmptyHosts connType [host] ++ nonEmptyHosts connType hosts := by
  unfold nonEmptyHosts
  by_cases he : host = "" <;> simp [List.filter_cons, he]

theorem checkHosts_agrees (connType : String) (dialer : DialTimeout) (client : HTTPClient)
    (hd : returnsConn dialer) (hc : returnsStatus client) :
    ∀ (hosts : List String) (st : Run) (entries : List (String × String)),
    st.agrees dialer client entries →
    ∃ st1, checkHosts connType dialer client st hosts = .ok st1 ∧
      st1.agrees dialer client (entries ++ nonEmptyHosts connType hosts)
  | [], st, entries, hst => ⟨st, rfl, by simpa [nonEmptyHosts] using hst⟩
  | host :: hosts, st, entries, hst => by
    obtain ⟨st1, hs1, ha1⟩ := checkHost_agrees connType dialer client hd hc st entries host hst
    obtain ⟨st2, hs2, ha2⟩ := checkHosts_agrees connType dialer client hd hc hosts st1 _ ha1
    refine ⟨st2, ?_, ?_⟩
    · simp only [checkHosts, hs1]
      exact hs2
    · rw [nonEmptyHosts_cons, ← List.append_assoc]
      exact ha2

theorem checkAll_agrees (dialer : DialTimeout) (client : HTTPClient)
    (hd : returnsConn dialer) (hc : returnsStatus client) :
    ∀ (requests : List (String × List String)) (st : Run) (entries : List (String × String)),
    st.agrees dialer client entries →
    ∃ st1, checkAll dialer client st requests = .ok st1 ∧
      st1.agrees dialer client (entries ++ nonEmptyEntries requests)
  | [], st, entries, hst => ⟨st, rfl, by simpa [nonEmptyEntries] using hst⟩
  | (connType, hosts) :: more, st, entries, hst => by
    obtain ⟨st1, hs1, ha1⟩ := checkHosts_agrees connType dialer client hd hc hosts st entries hst
    obtain ⟨st2, hs2, ha2⟩ := checkAll_agrees dialer client hd hc more st1 _ ha1
    refine ⟨st2, ?_, ?_⟩
    · simp only [checkAll, hs1]
      exact hs2
    · simp only [nonEmptyEntries]
      rw [← List.append_assoc]
      exact ha2

theorem mem_nonEmptyHosts (connType : String) (hosts : List String) (p : String × String) :
    p ∈ nonEmptyHosts connType hosts ↔ p.1 = connType ∧ p.2 ∈ hosts ∧ p.2 ≠ "" := by
  obtain ⟨t, h⟩ := p
  simp only [nonEmptyHosts, List.mem_map, List.mem_filter, decide_eq_true_eq, Prod.mk.injEq]
  constructor
  · rintro ⟨a, ⟨ha, hne⟩, rfl, rfl⟩
    exact ⟨rfl, ha, hne⟩
  · rintro ⟨rfl, ha, hne⟩
    exact ⟨h, ⟨ha, hne⟩, rfl, rfl⟩

/-- C6: with a dialer and a web client that hand out a connection, respectively a status
code, whenever they report no error, `main`'s loops over the parsed telnet and http lists
(in either order of the two) run to the end; `CanConnect` is invoked for exactly the
non-empty entries, in order; every invoked entry is appended to the failed list when its
check returned an error and to the succeeded list otherwise; and the exit code is 1 exactly
when the check of some non-empty entry returned an error, and 0 otherwise. -/
theorem mainChecks_exit_code (telnetFirst : Bool) (telnetRequests httpRequests : List String)
    (dialer : DialTimeout) (client : HTTPClient)
    (hd : returnsConn dialer) (hc : returnsStatus client) :
    ∃ st code, mainChecks telnetFirst telnetRequests httpRequests dialer client = .ok (st, code) ∧
      st.dispatched = nonEmptyEntries (allRequests telnetFirst telnetRequests httpRequests) ∧
      (∀ connType host, (connType, host) ∈ st.dispatched ↔
        host ≠ "" ∧ ((connType = "telnet" ∧ host ∈ telnetRequests) ∨
          (connType = "http" ∧ host ∈ httpRequests))) ∧
      st.hostsFailed = (st.dispatched.filter (checkFails dialer client)).map Prod.snd ∧
      st.hostsSuccess =
        (st.dispatched.filter (fun p => !checkFails dialer client p)).map Prod.snd ∧
      st.hostsSuccess.length + st.hostsFailed.length = st.dispatched.length ∧
      (code = 1 ↔ ∃ connType host, (connType, host) ∈ st.dispatched ∧
        ∃ b err, (CanConnect host connType dialer client).1 = .ok (b, some err)) ∧
      (code ≠ 1 → code = 0) := by
  obtain ⟨st, hrun, hdisp, hfail, hsucc⟩ := checkAll_agrees dialer client hd hc
    (allRequests telnetFirst telnetRequests httpRequests) {} [] ⟨rfl, rfl, rfl⟩
  rw [List.nil_append] at hdisp hfail hsucc
  have hmem : ∀ connType host, (connType, host) ∈ st.dispatched ↔
      host ≠ "" ∧ ((connType = "telnet" ∧ host ∈ telnetRequests) ∨
        (connType = "http" ∧ host ∈ httpRequests)) := by
    intro connType host
    rw [hdisp]
    cases telnetFirst <;>
      simp only [allRequests, nonEmptyEntries, List.mem_append, mem_nonEmptyHosts,
        List.not_mem_nil, or_false, if_true, if_false, Bool.false_eq_true] <;> tauto
  have hfails : ∀ p : String × String, checkFails dialer client p = true ↔
      ∃ b err, (CanConnect p.2 p.1 dialer client).1 = .ok (b, some err) := by
    intro p
    unfold checkFails
    constructor
    · intro h
      split at h
      · rename_i b err heq
        exact ⟨b, err, heq⟩
      · simp at h
    · rintro ⟨b, err, heq⟩
      rw [heq]
  have hlen : st.hostsSuccess.length + st.hostsFailed.length = st.dispatched.length := by
    rw [hfail, hsucc, hdisp, List.length_map, List.length_map]
    have := List.length_eq_length_filter_add (checkFails dialer client)
      (l := nonEmptyEntries (allRequests telnetFirst telnetRequests httpRequests))
    omega
  have hpos : st.hostsFailed.length > 0 ↔ ∃ connType host, (connType, host) ∈ st.dispatched ∧
      ∃ b err, (CanConnect host connType dialer client).1 = .ok (b, some err) := by
    rw [hfail, hdisp, List.length_map, gt_iff_lt, List.length_pos_iff_exists_mem]
    constructor
    · rintro ⟨p, hp⟩
      rw [List.mem_filter] at hp
      exact ⟨p.1, p.2, hp.1, (hfails p).1 hp.2⟩
    · rintro ⟨t, h, hp, hb⟩
      exact ⟨(t, h), List.mem_filter.2 ⟨hp, (hfails (t, h)).2 hb⟩⟩
  have hfail2 : st.hostsFailed = (st.dispatched.filter (checkFails dialer client)).map Prod.snd := by
    rw [hfail, hdisp]
  have hsucc2 : st.hostsSuccess =
      (st.dispatched.filter (fun p => !checkFails dialer client p)).map Prod.snd := by
    rw [hsucc, hdisp]
  unfold mainChecks
  rw [hrun]
  by_cases hf : st.hostsFailed.length > 0
  · simp only [if_pos hf]
    exact ⟨_, 1, rfl, hdisp, hmem, hfail2, hsucc2, hlen, ⟨fun _ => hpos.1 hf, fun _ => rfl⟩,
      fun h => absurd rfl h⟩
  · simp only [if_neg hf]
    exact ⟨_, 0, rfl, hdisp, hmem, hfail2, hsucc2, hlen,
      ⟨fun h => absurd h (by decide), fun h => absurd (hpos.2 h) hf⟩, fun _ => rfl⟩

/-- C6 on the end-to-end case: the telnet list `["localhost:33333"]` (reachable with the
mock dialer) and the http list `["http://giveme500.com"]` (502 with the mock client), in
either order, give one succeeded host, one failed host and exit code 1. -/
theorem mainChecks_exit_code_witness :
    returnsConn mockDialWithTimeout ∧ returnsStatus fakeHTTPClient ∧
    (∃ st code, mainChecks true ["localhost:33333"] ["http://giveme500.com"]
        mockDialWithTimeout fakeHTTPClient = .ok (st, code) ∧
      st.hostsSuccess.length + st.hostsFailed.length = st.dispatched.length) ∧
    (mainChecks true ["localhost:33333"] ["http://giveme500.com"] mockDialWithTimeout
        fakeHTTPClient).map (fun r => (r.1.hostsSuccess, r.1.hostsFailed, r.2)) =
      .ok (["localhost:33333"], ["http://giveme500.com"], 1) ∧
    (mainChecks false ["localhost:33333"] ["http://giveme500.com"] mockDialWithTimeout
        fakeHTTPClient).map (fun r => (r.1.hostsSuccess, r.1.hostsFailed, r.2)) =
      .ok (["localhost:33333"], ["http://giveme500.com"], 1) ∧
    (mainRun true "localhost:33333" "http://giveme500.com" mockDialWithTimeout
        fakeHTTPClient).map (fun r => (r.1.hostsSuccess.length, r.1.hostsFailed.length, r.2)) =
      .ok (1, 1, 1) := by
  refine ⟨returnsConn_mock, returnsStatus_mock, ?_, by decide, by decide, by decide⟩
  obtain ⟨st, code, h1, _, _, _, _, h6, _⟩ := mainChecks_exit_code true ["localhost:33333"]
    ["http://giveme500.com"] mockDialWithTimeout fakeHTTPClient returnsConn_mock
    returnsStatus_mock
  exact ⟨st, code, h1, h6⟩

end Canihaz
